import Mathlib

/-!
Shallow embedding of the deBridge DLN order-event scraper
(`src/infrastructure/tokens_info_cache.ts`, `src/scrapper/order_created_parser.ts`,
`src/scrapper/order_fulfilled_parser.ts`, `src/scrapper/transaction_parser.ts`,
`src/scrapper/transaction_getter.ts`) together with theorems settling the
specification claims about it.

Modelling conventions:
* JavaScript numbers are modelled as exact rationals (`ℚ`); `NaN` is modelled
  as `none` of `Option ℚ` where the source can produce it.
* `x | null | undefined` values are modelled with `Option`.
* The asynchronous token-metadata collaborator handed to the reconstructors is
  modelled as a pure oracle `String → Option TokenInfo` (the value its
  `getTokenInfo` method resolves to for each address); the cache class itself is
  modelled separately, with explicit state and an external-lookup counter.
-/

namespace DeBridge

/-- `TokenInfo` of `src/interfaces/infrastructure_interfaces.ts`:
address key, symbol and decimal precision of a token. -/
structure TokenInfo where
  key : String
  symbol : String
  precision : Nat
deriving DecidableEq, Repr

/-- One entry of the answer returned by the external token-metadata source
(`https://lite-api.jup.ag/tokens/v2/search` in `tokens_info_cache.ts`). -/
structure ApiEntry where
  symbol : String
  decimals : Nat
deriving DecidableEq, Repr

/-- The external metadata source itself: for each queried address, the list of
matching entries (`data` in `_getTokenInfoFromApi`). -/
abbrev TokenApi := String → List ApiEntry

/-- The `tokens` map of `TokensInfoCache`, modelled as an association list
(later bindings shadow earlier ones, as for a `Map` whose `set` overwrites). -/
def lookupTokens : List (String × TokenInfo) → String → Option TokenInfo
  | [], _ => none
  | (k, v) :: rest, key => if k = key then some v else lookupTokens rest key

/-- `TokensInfoCache._getTokenInfoFromApi`: query the external source; if it
returns at least one entry, build a `TokenInfo` from the first one, otherwise
return the hard-coded default `{key: address, symbol: address, precision: 6}`.
Both branches of the source return a value, so the result is always `some`. -/
def _getTokenInfoFromApi (api : TokenApi) (tokenPK : String) : Option TokenInfo :=
  match api tokenPK with
  | d :: _ => some { key := tokenPK, symbol := d.symbol, precision := d.decimals }
  | [] => some { key := tokenPK, symbol := tokenPK, precision := 6 }

/-- Result of one `getTokenInfo` call: the returned value, the cache map after
the call, and the number of external lookups the call issued. -/
structure GetTokenInfoResult where
  result : Option TokenInfo
  tokens : List (String × TokenInfo)
  lookups : Nat
deriving DecidableEq, Repr

/-- `TokensInfoCache.getTokenInfo`: return the cached entry when present
(no external lookup); otherwise query the API (one external lookup) and cache
a non-null result before returning it. -/
def getTokenInfo (api : TokenApi) (tokens : List (String × TokenInfo))
    (tokenPK : String) : GetTokenInfoResult :=
  match lookupTokens tokens tokenPK with
  | some cached => { result := some cached, tokens := tokens, lookups := 0 }
  | none =>
    match _getTokenInfoFromApi api tokenPK with
    | some tokenInfo =>
      { result := some tokenInfo, tokens := (tokenPK, tokenInfo) :: tokens, lookups := 1 }
    | none => { result := none, tokens := tokens, lookups := 1 }

/-! ## Decoded program events and shared encodings -/

/-- Hex digit for a value below 16, lowercase as `Buffer.toString("hex")`. -/
def hexDigit (n : Nat) : Char :=
  if n < 10 then Char.ofNat (48 + n) else Char.ofNat (87 + n)

/-- One byte as two lowercase hex characters. -/
def byteToHex (b : Nat) : List Char :=
  [hexDigit (b % 256 / 16), hexDigit (b % 16)]

/-- `Buffer.from(bytes).toString("hex")`: hex encoding of a byte sequence. -/
def bytesToHex (bs : List Nat) : String :=
  ⟨(bs.map byteToHex).flatten⟩

/-- `new BN(Buffer.from(bytes), 'be')`: big-endian bytes to an unsigned
integer. -/
def beBytesToNat : List Nat → Nat
  | [] => 0
  | b :: rest => b % 256 * 256 ^ rest.length + beBytesToNat rest

/-- The `give` object of a `CreatedOrder` event
(`eventData.order.give.{amount, tokenAddress}`, both byte arrays that may be
absent). -/
structure GiveData where
  amount : Option (List Nat)
  tokenAddress : Option (List Nat)
deriving DecidableEq, Repr

/-- The `order` object of a `CreatedOrder` event. -/
structure OrderData where
  give : Option GiveData
deriving DecidableEq, Repr

/-- The decoded payload of an anchor event, covering the fields the parsers
read: `orderId` (byte array, read unchecked by both parsers), the nested
`order` object, and the two fee fields (big integers, absent on some shapes). -/
structure EventData where
  orderId : List Nat
  order : Option OrderData
  percentFee : Option ℚ
  fixedFee : Option ℚ
deriving DecidableEq, Repr

/-- A decoded anchor `Event`: name plus payload. -/
structure Event where
  name : String
  data : EventData
deriving DecidableEq, Repr

/-- The collaborator `PublicKey` rendering of a raw byte address, abstracted as
an injective byte-to-string encoding (hex here; the source renders base58 via
`new PublicKey(bytes)`, falling back to the hex string when that throws). -/
def pubkeyOfBytes (bs : List Nat) : String :=
  bytesToHex bs

/-! ## `order_created_parser.ts` -/

/-- `ParsedOrderCreated` of `src/interfaces/scrapper_interfaces.ts`. -/
structure ParsedOrderCreated where
  orderId : String
  status : String
  amount : ℚ
  percentFee : ℚ
  fixedFee : ℚ
  tokenSymbol : String
  tokenKey : String
deriving DecidableEq, Repr

/-- `OrderCreatedParser._getAmountFromOrderEvent`: read
`eventData.order.give.amount` as big-endian bytes and scale by
`10^-decimals`; an absent field yields 0. -/
def _getAmountFromOrderEvent (orderEvent : Event) (decimals : Nat) : ℚ :=
  match orderEvent.data.order.bind (fun o => o.give.bind (fun g => g.amount)) with
  | none => 0
  | some giveAmountRaw => (beBytesToNat giveAmountRaw : ℚ) / 10 ^ decimals

/-- Dynamic field access `eventData[fieldName]` for the two fee fields read by
`_getFeeFromOrderEvent`. -/
def eventDataField (d : EventData) (fieldName : String) : Option ℚ :=
  if fieldName = "percentFee" then d.percentFee
  else if fieldName = "fixedFee" then d.fixedFee
  else none

/-- `OrderCreatedParser._getFeeFromOrderEvent`: read the named fee field and
scale by `10^-decimals`; an absent field yields 0. -/
def _getFeeFromOrderEvent (orderEvent : Event) (fieldName : String)
    (decimals : Nat) : ℚ :=
  match eventDataField orderEvent.data fieldName with
  | none => 0
  | some feeRaw => feeRaw / 10 ^ decimals

/-- `OrderCreatedParser._getTokenInfoFromOrderEvent`: resolve
`eventData.order.give.tokenAddress` through the token-info collaborator;
an absent address yields null. -/
def _getTokenInfoFromOrderEvent (orderEvent : Event)
    (tokensInfo : String → Option TokenInfo) : Option TokenInfo :=
  match orderEvent.data.order.bind (fun o => o.give.bind (fun g => g.tokenAddress)) with
  | none => none
  | some tokenAddressBytes => tokensInfo (pubkeyOfBytes tokenAddressBytes)

/-- `OrderCreatedParser.parseOrderCreatedEvent`: find the first
`CreatedOrderId` and the first `CreatedOrder` event; if either is missing,
return null; otherwise build the single created-order record, defaulting the
token to USDC with 6 decimals when resolution yields null. -/
def parseOrderCreatedEvent (trnEvent : List Event)
    (tokensInfo : String → Option TokenInfo) : Option (List ParsedOrderCreated) :=
  match trnEvent.find? (fun event => event.name == "CreatedOrderId") with
  | none => none
  | some idEvent =>
    match trnEvent.find? (fun event => event.name == "CreatedOrder") with
    | none => none
    | some orderEvent =>
      let orderId := bytesToHex idEvent.data.orderId
      let tokenInfoResult := _getTokenInfoFromOrderEvent orderEvent tokensInfo
      let tokenSymbol := match tokenInfoResult with
        | none => "USDC"
        | some t => t.symbol
      let decimals := match tokenInfoResult with
        | none => 6
        | some t => t.precision
      let tokenKey := match tokenInfoResult with
        | none => "USDC"
        | some t => t.key
      some [{ orderId := orderId
              status := "created"
              amount := _getAmountFromOrderEvent orderEvent decimals
              percentFee := _getFeeFromOrderEvent orderEvent "percentFee" decimals
              fixedFee := _getFeeFromOrderEvent orderEvent "fixedFee" decimals
              tokenSymbol := tokenSymbol
              tokenKey := tokenKey }]

/-! ## `order_fulfilled_parser.ts` -/

/-- Bool test that `pat` occurs contiguously inside a character list
(JavaScript `String.prototype.includes`). -/
def hasRun (pat : List Char) : List Char → Bool
  | [] => pat.isEmpty
  | c :: rest => pat.isPrefixOf (c :: rest) || hasRun pat rest

/-- `message.includes(pat)` on strings. -/
def strIncludes (s pat : String) : Bool :=
  hasRun pat.data s.data

/-- The `tokenAmount` object of a `transferChecked` instruction's `info`. -/
structure TokenAmountData where
  amount : Option ℚ
deriving DecidableEq, Repr

/-- The `info` object of a parsed inner instruction, covering the fields the
parser reads: `lamports` (native transfers), `amount` (flat token transfers),
`tokenAmount.amount` (checked token transfers) and `mint`. -/
structure InstrInfo where
  lamports : Option ℚ
  amount : Option ℚ
  tokenAmount : Option TokenAmountData
  mint : Option String
deriving DecidableEq, Repr

/-- The `parsed` object of a `ParsedInstruction`: instruction kind and info. -/
structure ParsedData where
  type : String
  info : Option InstrInfo
deriving DecidableEq, Repr

/-- A `ParsedInstruction` of `@solana/web3.js`: owning program id, program
label (e.g. `spl-token`) and the parsed payload when the RPC could parse it. -/
structure ParsedInstruction where
  programId : String
  program : String
  parsed : Option ParsedData
deriving DecidableEq, Repr

/-- One `innerInstructions` group of a parsed transaction: the index of the
top-level instruction that spawned it and its parsed inner instructions. -/
structure InnerInstructionGroup where
  index : Nat
  instructions : List ParsedInstruction
deriving DecidableEq, Repr

/-- A `ParsedTransactionWithMeta`, restricted to the fields the scraper reads.
`logMessages` and `innerInstructions` stand for `meta?.logMessages || []` and
`meta?.innerInstructions` (absent meta modelled as empty lists); `blockTime`
is `none` when the RPC reports no block time (null or undefined). -/
structure Transaction where
  signatures : List String
  logMessages : List String
  innerInstructions : List InnerInstructionGroup
  blockTime : Option Int
deriving DecidableEq, Repr

/-- `ParsedOrderFilled` of `src/interfaces/scrapper_interfaces.ts`; `amount`
is `none` when the JavaScript computation produces `NaN`. -/
structure ParsedOrderFilled where
  orderId : String
  amount : Option ℚ
  status : String
  tokenKey : String
  tokenSymbol : String
deriving DecidableEq, Repr

/-- The system (native currency) program id. -/
def systemProgramId : String := "11111111111111111111111111111111"

/-- The SPL token program id. -/
def tokenkegProgramId : String := "TokenkegQfeZyiNwAJbNbGKPFXCWuBvf9Ss623VQ5DA"

/-- The wrapped-SOL mint address used for native transfers. -/
def wsolMint : String := "So11111111111111111111111111111111111111112"

/-- JavaScript `x || y` over numbers with `none` as `NaN`: `NaN` and `0` are
falsy and select `y`; any other number is returned unchanged. -/
def jsOr (x y : Option ℚ) : Option ℚ :=
  match x with
  | none => y
  | some v => if v = 0 then y else some v

/-- `OrderFulfilledParser._getAmountFromInstruction`: a missing `parsed`
payload yields 0; a system-program transfer yields `lamports / 10^precision`
(`none` = `NaN` when `lamports` is absent); an spl-token / token-program
transfer yields `Number(info?.amount) || Number(info?.tokenAmount?.amount) /
10 ** precision` — by JavaScript operator precedence the division applies only
to the second disjunct, so a present flat `amount` is returned unscaled; any
other program yields 0. -/
def _getAmountFromInstruction (innerTransferInstruction : ParsedInstruction)
    (tokenInfoResult : TokenInfo) : Option ℚ :=
  match innerTransferInstruction.parsed with
  | none => some 0
  | some parsedData =>
    if innerTransferInstruction.programId = systemProgramId then
      (parsedData.info.bind (fun i => i.lamports)).map
        (fun v => v / 10 ^ tokenInfoResult.precision)
    else if innerTransferInstruction.program = "spl-token" ∨
        innerTransferInstruction.programId = tokenkegProgramId then
      jsOr (parsedData.info.bind (fun i => i.amount))
        ((parsedData.info.bind (fun i => i.tokenAmount.bind (fun t => t.amount))).map
          (fun v => v / 10 ^ tokenInfoResult.precision))
    else some 0

/-- `OrderFulfilledParser._getTransferInnerInstruction`: find the inner
instruction group whose `index` equals the recovered instruction index, then
the first of its instructions whose parsed kind is `transfer` or
`transferChecked`. -/
def _getTransferInnerInstruction (transaction : Transaction) (instIndex : Int) :
    Option ParsedInstruction :=
  match transaction.innerInstructions.find? (fun inner => (inner.index : Int) == instIndex) with
  | none => none
  | some instruction =>
    instruction.instructions.find? (fun innerInstruction =>
      match innerInstruction.parsed with
      | some p => p.type == "transfer" || p.type == "transferChecked"
      | none => false)

/-- Loop body of `_getFulfilledEventsInstIndexes`, walking the log lines with
the open-invocation index `programInvokeCounter` (−1 when none is open) and
the running top-level invocation counter `invokeCounter`. A line matching the
target program and `invoke [1]` opens the current counter value; the event
check then runs on the updated open index and records it whenever the line
contains the event name and the open index differs from 0 (the source compares
against 0, not against the −1 sentinel). -/
def instIndexesGo (programIDString eventName : String) :
    List String → Int → Int → List Int
  | [], _, _ => []
  | message :: rest, programInvokeCounter, invokeCounter =>
    let pic :=
      if strIncludes message programIDString && strIncludes message "invoke [1]" then
        invokeCounter
      else programInvokeCounter
    let ic :=
      if strIncludes message "invoke [1]" then invokeCounter + 1 else invokeCounter
    if strIncludes message eventName && pic != 0 then
      pic :: instIndexesGo programIDString eventName rest (-1) ic
    else
      instIndexesGo programIDString eventName rest pic ic

/-- `OrderFulfilledParser._getFulfilledEventsInstIndexes`: recover, from the
transaction's log lines, the list of top-level instruction indexes paired
positionally with the fulfillment events. -/
def _getFulfilledEventsInstIndexes (transaction : Transaction)
    (programIDString eventName : String) : List Int :=
  instIndexesGo programIDString eventName transaction.logMessages (-1) 0

/-- The hex order ids of the events named `Fulfilled`, in event order
(`fulfilledEventsIDs` of `parseOrderFilledEvent`). -/
def fulfilledOrderIds (dstEvents : List Event) : List String :=
  (dstEvents.filter (fun event => event.name == "Fulfilled")).map
    (fun event => bytesToHex event.data.orderId)

/-- `OrderFulfilledParser._getTokenInfoFromInstruction`: a system-program
transfer resolves the wrapped-SOL mint (defaulting to symbol `SOL`,
precision 9 when resolution yields null); an spl-token transfer resolves
`info.mint` (defaulting to the address itself with precision 6); anything else
yields null. A missing `mint` makes the source throw inside the `PublicKey`
constructor; the model returns null there (no claim exercises that path). -/
def _getTokenInfoFromInstruction (instruction : ParsedInstruction)
    (tokensInfo : String → Option TokenInfo) : Option TokenInfo :=
  if instruction.programId = systemProgramId then
    some ((tokensInfo wsolMint).getD
      { key := wsolMint, symbol := "SOL", precision := 9 })
  else if instruction.program = "spl-token" then
    match instruction.parsed.bind (fun p => p.info) with
    | none => none
    | some infoInstr =>
      match infoInstr.mint with
      | none => none
      | some tokenAddress =>
        some ((tokensInfo tokenAddress).getD
          { key := tokenAddress, symbol := tokenAddress, precision := 6 })
  else none

/-- Per-pair loop of `parseOrderFilledEvent`: for each (order id, instruction
index) pair locate the transfer inner instruction and its token info, skipping
the pair (not the transaction) when either is missing, and build the filled
record otherwise. -/
def buildFilledOrders (transaction : Transaction)
    (tokensInfo : String → Option TokenInfo) :
    List (String × Int) → List ParsedOrderFilled
  | [] => []
  | (orderId, instIndex) :: rest =>
    match _getTransferInnerInstruction transaction instIndex with
    | none => buildFilledOrders transaction tokensInfo rest
    | some innerTransferInstruction =>
      match _getTokenInfoFromInstruction innerTransferInstruction tokensInfo with
      | none => buildFilledOrders transaction tokensInfo rest
      | some tokenInfoResult =>
        { orderId := orderId
          amount := _getAmountFromInstruction innerTransferInstruction tokenInfoResult
          status := "filled"
          tokenKey := tokenInfoResult.key
          tokenSymbol := tokenInfoResult.symbol } ::
          buildFilledOrders transaction tokensInfo rest

/-- `OrderFulfilledParser.parseOrderFilledEvent`: collect the `Fulfilled`
order ids and the log-walk instruction indexes; when their counts differ the
whole transaction is rejected (null); otherwise the positionally paired lists
drive the per-order reconstruction. (The source's `if (!idEvent) return null`
guard never fires — `filter` always returns an array — and is omitted.) -/
def parseOrderFilledEvent (dstEvents : List Event)
    (tokensInfo : String → Option TokenInfo) (transaction : Transaction)
    (dstProgramID : String) : Option (List ParsedOrderFilled) :=
  let fulfilledEventsIDs := fulfilledOrderIds dstEvents
  let fulfilledEventsInstIndexes :=
    _getFulfilledEventsInstIndexes transaction dstProgramID "FulfillOrder"
  if fulfilledEventsInstIndexes.length ≠ fulfilledEventsIDs.length then none
  else some (buildFilledOrders transaction tokensInfo
    (fulfilledEventsIDs.zip fulfilledEventsInstIndexes))

/-! ## `transaction_parser.ts` -/

/-- `TransactionParserResult` of `src/interfaces/scrapper_interfaces.ts`. -/
structure TransactionParserResult where
  orderId : String
  status : String
  amount : Option ℚ
  timestamp : Int
  tokenSymbol : String
  tokenKey : String
  percentFee : ℚ
  fixedFee : ℚ
deriving DecidableEq, Repr

/-- `_collectTransactionParserResult` on the created variant of the union:
`'percentFee' in order` and `'fixedFee' in order` hold, so the fees are
copied. -/
def _collectCreatedResult (order : ParsedOrderCreated) (transactionTimestamp : Int) :
    TransactionParserResult :=
  { orderId := order.orderId
    status := order.status
    amount := some order.amount
    timestamp := transactionTimestamp
    tokenSymbol := order.tokenSymbol
    tokenKey := order.tokenKey
    percentFee := order.percentFee
    fixedFee := order.fixedFee }

/-- `_collectTransactionParserResult` on the filled variant of the union: the
fee fields are absent, so both default to 0. -/
def _collectFilledResult (order : ParsedOrderFilled) (transactionTimestamp : Int) :
    TransactionParserResult :=
  { orderId := order.orderId
    status := order.status
    amount := order.amount
    timestamp := transactionTimestamp
    tokenSymbol := order.tokenSymbol
    tokenKey := order.tokenKey
    percentFee := 0
    fixedFee := 0 }

/-- `parseDataFromTransaction` of `transaction_parser.ts`. The two
program-bound event decoders (`srcEventParser.parseLogs`,
`dstEventParser.parseLogs`) are collaborator capabilities, passed as
functions from log lines to decoded events. The second component of the
result instruments the control flow: it is `true` exactly when the
`OrderFulfilledParser` was consulted. A null transaction or a missing block
time short-circuits to undefined (`none`); a non-null created result returns
the created records without consulting the fulfilled parser; otherwise the
fulfilled result (or undefined when it is null) is returned. -/
def parseDataFromTransaction (srcDecode dstDecode : List String → List Event)
    (tokensInfo : String → Option TokenInfo) (dstProgramID : String)
    (transaction : Option Transaction) :
    Option (List TransactionParserResult) × Bool :=
  match transaction with
  | none => (none, false)
  | some t =>
    let logMessages := t.logMessages
    let srcEvents := srcDecode logMessages
    let dstEvents := dstDecode logMessages
    match t.blockTime with
    | none => (none, false)
    | some transactionTimestamp =>
      match parseOrderCreatedEvent srcEvents tokensInfo with
      | some orderCreatedEvent =>
        (some (orderCreatedEvent.map (fun o => _collectCreatedResult o transactionTimestamp)),
          false)
      | none =>
        match parseOrderFilledEvent dstEvents tokensInfo t dstProgramID with
        | some orderFilledEvent =>
          (some (orderFilledEvent.map (fun o => _collectFilledResult o transactionTimestamp)),
            true)
        | none => (none, true)

/-! ## `transaction_getter.ts`

`fetchOrdersInBatches` pages backward through signature history; each page of
signatures is turned into transactions and then into zero or more parsed
order records. The batching loop below abstracts one iteration of the
`while (collectedCount < totalRequired)` loop by the list of records the
page contributed (`parsedOrders.length - alreadyParsedOrdersLen` new orders);
the generator's `break` on an empty signature page corresponds to the page
list running out. The loop returns the yielded batches together with the
accumulator still unyielded at termination. -/

/-- One run of the `while` loop of `fetchOrdersInBatches`, starting from
accumulator `parsedOrders` and running total `collectedCount`: stop when the
total has reached `totalRequired` or history is exhausted; otherwise consume a
page, append its records, bump the total, and yield
`parsedOrders.splice(0, batchSize)` (the first `batchSize` records) once the
accumulator reaches `batchSize` or the total reaches `totalRequired`. -/
def fetchLoop {α : Type} (totalRequired batchSize : Nat) :
    List (List α) → List α → Nat → List (List α) × List α
  | pages, parsedOrders, collectedCount =>
    if totalRequired ≤ collectedCount then ([], parsedOrders)
    else
      match pages with
      | [] => ([], parsedOrders)
      | page :: rest =>
        let parsed := parsedOrders ++ page
        let collected := collectedCount + page.length
        if batchSize ≤ parsed.length ∨ totalRequired ≤ collected then
          let r := fetchLoop totalRequired batchSize rest (parsed.drop batchSize) collected
          (parsed.take batchSize :: r.1, r.2)
        else
          fetchLoop totalRequired batchSize rest parsed collected

/-- `fetchOrdersInBatches`, batching view: the batches yielded for the given
page contributions, paired with the records accumulated but never yielded. -/
def fetchOrdersInBatches {α : Type} (totalRequired batchSize : Nat)
    (pages : List (List α)) : List (List α) × List α :=
  fetchLoop totalRequired batchSize pages [] 0

/-- Total number of records in a list of batches. -/
def sumLens {α : Type} (batches : List (List α)) : Nat :=
  (batches.map List.length).sum

/-! ## Theorems for the specification claims -/

/-- C1: whenever the number of instruction indexes recovered from the log walk
differs from the number of `Fulfilled`-event order ids, `parseOrderFilledEvent`
rejects the whole transaction with null — it never returns a shortened or
positionally misattributed list. -/
theorem fulfilled_mismatch_rejects_transaction (dstEvents : List Event)
    (tokensInfo : String → Option TokenInfo) (transaction : Transaction)
    (dstProgramID : String)
    (h : (_getFulfilledEventsInstIndexes transaction dstProgramID "FulfillOrder").length ≠
      (fulfilledOrderIds dstEvents).length) :
    parseOrderFilledEvent dstEvents tokensInfo transaction dstProgramID = none := by
  simp only [parseOrderFilledEvent]
  rw [if_pos h]

/-- Witness for C1: one `Fulfilled` event against a transaction whose logs
recover no instruction index is rejected as a whole. -/
theorem fulfilled_mismatch_rejects_transaction_witness :
    (_getFulfilledEventsInstIndexes ⟨[], [], [], none⟩ "P" "FulfillOrder").length ≠
      (fulfilledOrderIds [⟨"Fulfilled", ⟨[1, 2], none, none, none⟩⟩]).length ∧
    parseOrderFilledEvent [⟨"Fulfilled", ⟨[1, 2], none, none, none⟩⟩]
      (fun _ => none) ⟨[], [], [], none⟩ "P" = none :=
  ⟨by decide, fulfilled_mismatch_rejects_transaction _ _ _ _ (by decide)⟩

/-- C2 (code evaluated at the failing input): the native path divides the raw
lamports by `10^precision` and the checked-amount path divides the nested
amount by `10^precision`, but the flat-amount path of an spl-token transfer
returns the raw quantity unscaled — `Number(a) || Number(b) / 10 ** p`
parenthesizes as `Number(a) || (Number(b) / 10 ** p)` — contradicting the
claim that each token path is divided by `10^precision`. -/
theorem amount_flat_token_path_unscaled :
    _getAmountFromInstruction
      ⟨systemProgramId, "system", some ⟨"transfer", some ⟨some 3919776213, none, none, none⟩⟩⟩
      ⟨wsolMint, "SOL", 9⟩ = some (3919776213 / 10 ^ 9 : ℚ) ∧
    _getAmountFromInstruction
      ⟨tokenkegProgramId, "spl-token", some ⟨"transfer", some ⟨none, some 5000000, none, none⟩⟩⟩
      ⟨"EPjF", "USDC", 6⟩ = some 5000000 ∧
    (5000000 : ℚ) ≠ 5000000 / 10 ^ 6 ∧
    _getAmountFromInstruction
      ⟨tokenkegProgramId, "spl-token",
        some ⟨"transferChecked", some ⟨none, none, some ⟨some 1000000⟩, none⟩⟩⟩
      ⟨"EPjF", "USDC", 6⟩ = some (1000000 / 10 ^ 6 : ℚ) := by
  refine ⟨?_, ?_, ?_, ?_⟩
  · norm_num [_getAmountFromInstruction, systemProgramId]
  · norm_num [_getAmountFromInstruction, jsOr, systemProgramId, tokenkegProgramId]
    exact fun h => absurd h (by decide)
  · norm_num
  · norm_num [_getAmountFromInstruction, jsOr, systemProgramId, tokenkegProgramId]
    exact fun h => absurd h (by decide)

/-- C3 (code evaluated at the failing inputs): the log walk guards the
recording step with `programInvokeCounter !== 0` instead of testing the −1
"no index open" sentinel, so (first conjunct) an event line whose open index
is 0 records nothing, (second conjunct) an event line with no open invocation
records the sentinel −1 itself, and (third conjunct) an open index other than
0 is recorded as the claim describes. -/
theorem log_walk_miscounts_at_zero_and_unopened :
    _getFulfilledEventsInstIndexes
      ⟨[], ["P invoke [1]", "Y FulfillOrder end"], [], none⟩ "P" "FulfillOrder" = [] ∧
    _getFulfilledEventsInstIndexes
      ⟨[], ["Y FulfillOrder end"], [], none⟩ "P" "FulfillOrder" = [-1] ∧
    _getFulfilledEventsInstIndexes
      ⟨[], ["Q invoke [1]", "P invoke [1]", "Y FulfillOrder end"], [], none⟩
      "P" "FulfillOrder" = [1] := by
  refine ⟨by decide, by decide, by decide⟩

/-- C6: a transaction's event set lacking a `CreatedOrderId` event or lacking
a `CreatedOrder` event (in particular lacking both) makes
`parseOrderCreatedEvent` return null, never an error. -/
theorem created_missing_event_yields_none (trnEvent : List Event)
    (tokensInfo : String → Option TokenInfo)
    (h : (∀ e ∈ trnEvent, e.name ≠ "CreatedOrderId") ∨
      (∀ e ∈ trnEvent, e.name ≠ "CreatedOrder")) :
    parseOrderCreatedEvent trnEvent tokensInfo = none := by
  rcases h with h | h
  · have hid : trnEvent.find? (fun event => event.name == "CreatedOrderId") = none := by
      rw [List.find?_eq_none]
      intro e he
      simpa using h e he
    simp [parseOrderCreatedEvent, hid]
  · have hord : trnEvent.find? (fun event => event.name == "CreatedOrder") = none := by
      rw [List.find?_eq_none]
      intro e he
      simpa using h e he
    cases hid : trnEvent.find? (fun event => event.name == "CreatedOrderId") with
    | none => simp [parseOrderCreatedEvent, hid]
    | some idEvent => simp [parseOrderCreatedEvent, hid, hord]

/-- Witness for C6: the empty event set yields null. -/
theorem created_missing_event_yields_none_witness :
    parseOrderCreatedEvent [] (fun _ => none) = none :=
  created_missing_event_yields_none [] (fun _ => none) (.inl (by simp))

/-- C7: an address the cache does not hold and for which the external source
returns no match resolves to the deterministic fallback
`{key: address, symbol: address, precision: 6}` rather than to null. -/
theorem resolver_fallback_on_no_match (api : TokenApi)
    (tokens : List (String × TokenInfo)) (address : String)
    (hcache : lookupTokens tokens address = none) (hapi : api address = []) :
    (getTokenInfo api tokens address).result =
      some { key := address, symbol := address, precision := 6 } := by
  simp [getTokenInfo, hcache, _getTokenInfoFromApi, hapi]

/-- Witness for C7: a fresh cache and an external source with no matches
resolve an address to the fallback. -/
theorem resolver_fallback_on_no_match_witness :
    (getTokenInfo (fun _ => []) [] "ADDR").result =
      some { key := "ADDR", symbol := "ADDR", precision := 6 } :=
  resolver_fallback_on_no_match (fun _ => []) [] "ADDR" rfl rfl

/-- C8: resolving an uncached address twice in sequence issues exactly one
external lookup in total, and the second resolution returns the same
`TokenInfo` as the first (the first call memoizes it). -/
theorem resolver_memoized (api : TokenApi) (tokens : List (String × TokenInfo))
    (address : String) (hcache : lookupTokens tokens address = none) :
    (getTokenInfo api tokens address).lookups +
      (getTokenInfo api (getTokenInfo api tokens address).tokens address).lookups = 1 ∧
    (getTokenInfo api (getTokenInfo api tokens address).tokens address).result =
      (getTokenInfo api tokens address).result := by
  cases hapi : api address with
  | nil => simp [getTokenInfo, hcache, _getTokenInfoFromApi, hapi, lookupTokens]
  | cons d rest => simp [getTokenInfo, hcache, _getTokenInfoFromApi, hapi, lookupTokens]

/-- Witness for C8: a fresh cache over a single-match source makes the double
resolution cost one lookup and agree with itself. -/
theorem resolver_memoized_witness :
    (getTokenInfo (fun _ => [⟨"USDC", 6⟩]) [] "ADDR").lookups +
      (getTokenInfo (fun _ => [⟨"USDC", 6⟩])
        (getTokenInfo (fun _ => [⟨"USDC", 6⟩]) [] "ADDR").tokens "ADDR").lookups = 1 ∧
    (getTokenInfo (fun _ => [⟨"USDC", 6⟩])
        (getTokenInfo (fun _ => [⟨"USDC", 6⟩]) [] "ADDR").tokens "ADDR").result =
      (getTokenInfo (fun _ => [⟨"USDC", 6⟩]) [] "ADDR").result :=
  resolver_memoized (fun _ => [⟨"USDC", 6⟩]) [] "ADDR" rfl

/-- C9: a transaction whose block time is null or undefined makes
`parseDataFromTransaction` return undefined, contributing zero order records
regardless of what its logs decode to. -/
theorem missing_block_time_drops_transaction
    (srcDecode dstDecode : List String → List Event)
    (tokensInfo : String → Option TokenInfo) (dstProgramID : String)
    (t : Transaction) (h : t.blockTime = none) :
    (parseDataFromTransaction srcDecode dstDecode tokensInfo dstProgramID (some t)).1 =
      none := by
  simp [parseDataFromTransaction, h]

/-- Witness for C9: a transaction with no block time yields undefined even
though its logs decode to a complete creation event pair. -/
theorem missing_block_time_drops_transaction_witness :
    parseOrderCreatedEvent
      [⟨"CreatedOrderId", ⟨[1], none, none, none⟩⟩, ⟨"CreatedOrder", ⟨[], none, none, none⟩⟩]
      (fun _ => none) ≠ none ∧
    (parseDataFromTransaction
      (fun _ => [⟨"CreatedOrderId", ⟨[1], none, none, none⟩⟩,
        ⟨"CreatedOrder", ⟨[], none, none, none⟩⟩])
      (fun _ => []) (fun _ => none) "P" (some ⟨[], [], [], none⟩)).1 = none :=
  ⟨by decide,
    missing_block_time_drops_transaction _ _ _ _ _ rfl⟩

/-- Helper: every record list `parseOrderCreatedEvent` returns carries status
`created`. -/
theorem parseOrderCreatedEvent_status (trnEvent : List Event)
    (tokensInfo : String → Option TokenInfo) (os : List ParsedOrderCreated)
    (h : parseOrderCreatedEvent trnEvent tokensInfo = some os) :
    ∀ o ∈ os, o.status = "created" := by
  simp only [parseOrderCreatedEvent] at h
  split at h
  · exact absurd h (by simp)
  · split at h
    · exact absurd h (by simp)
    · injection h with h
      subst h
      intro o ho
      rw [List.mem_singleton] at ho
      rw [ho]

/-- C10: when the created reconstructor returns a non-null result,
`parseDataFromTransaction` returns exactly the created records (the fulfilled
reconstructor is not consulted, witness the instrumentation flag `false`), and
every returned record has status `created` — so the transaction cannot also
contribute a filled record. -/
theorem created_takes_precedence (srcDecode dstDecode : List String → List Event)
    (tokensInfo : String → Option TokenInfo) (dstProgramID : String)
    (t : Transaction) (ts : Int) (os : List ParsedOrderCreated)
    (hbt : t.blockTime = some ts)
    (hc : parseOrderCreatedEvent (srcDecode t.logMessages) tokensInfo = some os) :
    parseDataFromTransaction srcDecode dstDecode tokensInfo dstProgramID (some t) =
      (some (os.map (fun o => _collectCreatedResult o ts)), false) ∧
    ∀ r ∈ (parseDataFromTransaction srcDecode dstDecode tokensInfo dstProgramID
      (some t)).1.getD [], r.status = "created" := by
  have hmain : parseDataFromTransaction srcDecode dstDecode tokensInfo dstProgramID (some t) =
      (some (os.map (fun o => _collectCreatedResult o ts)), false) := by
    simp [parseDataFromTransaction, hbt, hc]
  refine ⟨hmain, ?_⟩
  rw [hmain]
  intro r hr
  simp only [Option.getD_some] at hr
  rcases List.mem_map.mp hr with ⟨o, ho, rfl⟩
  have hstatus := parseOrderCreatedEvent_status _ _ _ hc o ho
  simp only [_collectCreatedResult]
  exact hstatus

/-- Witness for C10: a transaction decoding to a creation pair returns the
created record only, with the fulfilled reconstructor unconsulted. -/
theorem created_takes_precedence_witness :
    parseDataFromTransaction
        (fun _ => [⟨"CreatedOrderId", ⟨[171], none, none, none⟩⟩,
          ⟨"CreatedOrder", ⟨[], none, none, none⟩⟩])
        (fun _ => []) (fun _ => none) "P" (some ⟨["s"], [], [], some 5⟩) =
      (some (([⟨"ab", "created", 0, 0, 0, "USDC", "USDC"⟩] :
            List ParsedOrderCreated).map
        (fun o => _collectCreatedResult o 5)), false) ∧
    ∀ r ∈ (parseDataFromTransaction
        (fun _ => [⟨"CreatedOrderId", ⟨[171], none, none, none⟩⟩,
          ⟨"CreatedOrder", ⟨[], none, none, none⟩⟩])
        (fun _ => []) (fun _ => none) "P" (some ⟨["s"], [], [], some 5⟩)).1.getD [],
      r.status = "created" :=
  created_takes_precedence _ _ _ _ _ _ _ rfl rfl

/-- Helper: every batch the fetch loop yields is a `splice(0, batchSize)`
chunk, hence no longer than the batch size. -/
theorem fetchLoop_batches_le {α : Type} (totalRequired batchSize : Nat) :
    ∀ (pages : List (List α)) (acc : List α) (cc : Nat),
      ∀ b ∈ (fetchLoop totalRequired batchSize pages acc cc).1,
        b.length ≤ batchSize := by
  intro pages
  induction pages with
  | nil =>
    intro acc cc b hb
    unfold fetchLoop at hb
    split at hb <;> simp at hb
  | cons page rest ih =>
    intro acc cc b hb
    unfold fetchLoop at hb
    split at hb
    · simp at hb
    · dsimp only at hb
      split at hb
      · simp only [List.mem_cons] at hb
        rcases hb with rfl | h
        · exact List.length_take_le batchSize (acc ++ page)
        · exact ih _ _ b h
      · exact ih _ _ b hb

/-- Helper invariant for the total yielded by the fetch loop: entered below
the target, the loop has yielded at most `collected - cc` records whenever it
re-enters with running total `collected`, and the final iteration adds at most
one batch of at most `batchSize` records, so the grand total stays below
`acc.length + (totalRequired - cc - 1) + batchSize + 1`. -/
theorem fetchLoop_sum_le {α : Type} (totalRequired batchSize : Nat) :
    ∀ (pages : List (List α)) (acc : List α) (cc : Nat), cc < totalRequired →
      sumLens (fetchLoop totalRequired batchSize pages acc cc).1 ≤
        acc.length + (totalRequired - cc - 1) + batchSize := by
  intro pages
  induction pages with
  | nil =>
    intro acc cc h
    unfold fetchLoop
    rw [if_neg (by omega)]
    simp [sumLens]
  | cons page rest ih =>
    intro acc cc h
    unfold fetchLoop
    rw [if_neg (by omega)]
    dsimp only
    by_cases hy : batchSize ≤ (acc ++ page).length ∨ totalRequired ≤ cc + page.length
    · rw [if_pos hy]
      by_cases hcol : cc + page.length < totalRequired
      · have hrec := ih ((acc ++ page).drop batchSize) (cc + page.length) hcol
        simp only [sumLens, List.map_cons, List.sum_cons, List.length_take,
          List.length_drop, List.length_append] at hrec ⊢
        omega
      · have hstop : fetchLoop totalRequired batchSize rest
            ((acc ++ page).drop batchSize) (cc + page.length) =
            ([], (acc ++ page).drop batchSize) := by
          unfold fetchLoop
          rw [if_pos (by omega)]
        rw [hstop]
        simp only [sumLens, List.map_cons, List.map_nil, List.sum_cons, List.sum_nil,
          List.length_take, List.length_append]
        omega
    · rw [if_neg hy]
      push_neg at hy
      have hrec := ih (acc ++ page) (cc + page.length) hy.2
      simp only [sumLens, List.length_append] at hrec ⊢
      omega

/-- C4 (amended): every yielded batch has length at most `batchSize`, and the
total number of records yielded across the whole run is at most
`totalRequired + batchSize - 1` — the final yield flushes up to `batchSize`
accumulated records even when that carries the total past the target, so the
claimed bound of `totalRequired` alone does not hold. -/
theorem fetch_batch_bounds {α : Type} (totalRequired batchSize : Nat)
    (pages : List (List α)) :
    (∀ b ∈ (fetchOrdersInBatches totalRequired batchSize pages).1,
      b.length ≤ batchSize) ∧
    sumLens (fetchOrdersInBatches totalRequired batchSize pages).1 ≤
      totalRequired + batchSize - 1 := by
  constructor
  · exact fun b hb => fetchLoop_batches_le totalRequired batchSize pages [] 0 b hb
  · rcases Nat.eq_zero_or_pos totalRequired with h0 | hpos
    · subst h0
      unfold fetchOrdersInBatches fetchLoop
      rw [if_pos (Nat.zero_le 0)]
      simp [sumLens]
    · have hbound := fetchLoop_sum_le totalRequired batchSize pages [] 0 hpos
      simp only [fetchOrdersInBatches] at hbound ⊢
      simp only [List.length_nil] at hbound
      omega

/-- Witness for C4 (amended) at a concrete run: one page of two records
against target 1 and batch size 5. -/
theorem fetch_batch_bounds_witness :
    ([0, 1] : List Nat).length ≤ 5 ∧
    sumLens (fetchOrdersInBatches 1 5 [([0, 1] : List Nat)]).1 ≤ 1 + 5 - 1 :=
  ⟨(fetch_batch_bounds 1 5 [[0, 1]]).1 [0, 1] (by decide),
    (fetch_batch_bounds 1 5 [[0, 1]]).2⟩

/-- Counterexample to C4 as stated: with target 1 and batch size 5, a single
page contributing two records makes the run yield two records in total,
exceeding the requested total target count. -/
theorem fetch_total_exceeds_target_counterexample :
    ¬ sumLens (fetchOrdersInBatches 1 5 [([0, 1] : List Nat)]).1 ≤ 1 := by
  decide

/-- Helper conservation invariant: the records yielded by the fetch loop
followed by its final unyielded accumulator are exactly the starting
accumulator followed by the consumed pages, in order. -/
theorem fetchLoop_conservation {α : Type} (totalRequired batchSize : Nat) :
    ∀ (pages : List (List α)) (acc : List α) (cc : Nat),
      ∃ k, ((fetchLoop totalRequired batchSize pages acc cc).1).flatten ++
          (fetchLoop totalRequired batchSize pages acc cc).2 =
        acc ++ (pages.take k).flatten := by
  intro pages
  induction pages with
  | nil =>
    intro acc cc
    refine ⟨0, ?_⟩
    unfold fetchLoop
    split <;> simp
  | cons page rest ih =>
    intro acc cc
    by_cases h : totalRequired ≤ cc
    · refine ⟨0, ?_⟩
      unfold fetchLoop
      rw [if_pos h]
      simp
    · by_cases hy : batchSize ≤ (acc ++ page).length ∨ totalRequired ≤ cc + page.length
      · obtain ⟨k, hk⟩ := ih ((acc ++ page).drop batchSize) (cc + page.length)
        refine ⟨k + 1, ?_⟩
        unfold fetchLoop
        rw [if_neg h]
        dsimp only
        rw [if_pos hy]
        simp only [List.flatten_cons, List.take_succ_cons, List.append_assoc]
        rw [hk]
        rw [← List.append_assoc, List.take_append_drop]
        simp
      · obtain ⟨k, hk⟩ := ih (acc ++ page) (cc + page.length)
        refine ⟨k + 1, ?_⟩
        unfold fetchLoop
        rw [if_neg h]
        dsimp only
        rw [if_neg hy]
        rw [hk]
        simp [List.take_succ_cons]

/-- C5 (amended): every record consumed from the fetched pages either appears
in the yielded batches or remains in the final accumulator — in order, with
nothing duplicated or invented — but the final accumulator is discarded at
termination rather than flushed as a final batch. -/
theorem fetch_conservation_no_flush {α : Type} (totalRequired batchSize : Nat)
    (pages : List (List α)) :
    ∃ k, ((fetchOrdersInBatches totalRequired batchSize pages).1).flatten ++
        (fetchOrdersInBatches totalRequired batchSize pages).2 =
      (pages.take k).flatten := by
  obtain ⟨k, hk⟩ := fetchLoop_conservation totalRequired batchSize pages [] 0
  exact ⟨k, by simpa using hk⟩

/-- Counterexample to C5 as stated: exhausting history with two accumulated
records below both thresholds terminates the run with no yielded batch at all
— the accumulated records end in the dropped accumulator, never in a flushed
final batch. -/
theorem fetch_drops_remainder_counterexample :
    (fetchOrdersInBatches 5 10 [([7, 8] : List Nat)]).1 = [] ∧
    (fetchOrdersInBatches 5 10 [([7, 8] : List Nat)]).2 = [7, 8] :=
  ⟨by decide, by decide⟩

end DeBridge
